import Mathlib

/-!
Verification of the repository layer in `geniepy/datamgmt/repositories.py`.

The Python module defines three fixed table schemas (`CTD_DAO_TABLE`,
`PUBMED_DAO_TABLE`, `CLSFR_DAO_TABLE`) and two repository adapters:
`SqlRepository` (SQLAlchemy engine + pandas `to_sql` / `read_sql`) and
`GbqRepository` (BigQuery adapter whose bodies are stubbed with
`raise NotImplementedError`).

Shallow embedding: the relational backend is modelled as an association
list from table name to table state (columns and rows).  Each repository
method becomes a Lean function that takes the backend state `Db` and
returns the result, the post-state of `self`, and the new backend state.
Library semantics that the Python code delegates to are modelled per the
documented behaviour of the libraries:

* `Table.create` / `Table.drop` (SQLAlchemy) take a `checkfirst` flag
  that defaults to `false`, so an unconditional create fails when the
  table already exists and an unconditional drop fails when it is absent.
* `DataFrame.to_sql(..., if_exists := append, index := false,
  method := multi)` (pandas) creates the table from the frame when it is
  absent, executes no statement for an empty frame, inserts the frame
  columns into the existing table otherwise (columns of the table that
  the frame lacks receive NULL), and runs inside a transaction, so a
  failed insert leaves the table unchanged.  The backend rejects a frame
  column that the table does not have, and a NULL in a NOT NULL column.
* `pd.read_sql(tablename, con, chunksize)` yields the stored rows, in
  insertion order, as frames of `chunksize` rows each (last one shorter);
  an empty table yields no chunk.

Error correspondence with the spec taxonomy: `DaoError` in the code is
the spec `StorageError`; Python `NotImplementedError` is the spec
`UnsupportedOperationError`.
-/

namespace Genie

/-- Column types available to the schemas (sqlalchemy `Integer`, `Float`,
`String`). -/
inductive ColType : Type
  | integer : ColType
  | float : ColType
  | string : ColType
deriving DecidableEq

/-- One schema column: sqlalchemy `Column(name, type, primary_key, nullable)`;
`nullable` defaults to true in sqlalchemy, the repository schemas set it
explicitly on the required columns and set `primary_key = False` so that
duplicate records are allowed. -/
structure Column : Type where
  name : String
  ctype : ColType
  nullable : Bool
  primaryKey : Bool
deriving DecidableEq

/-- A table schema: sqlalchemy `Table(name, MetaData(), Column...)`. -/
structure Table : Type where
  name : String
  columns : List Column
deriving DecidableEq

/-- A cell value stored in the database.  Doubles are modelled as
rationals (no claim depends on float rounding); NULL is explicit. -/
inductive SqlValue : Type
  | vint : Int → SqlValue
  | vfloat : Rat → SqlValue
  | vstr : String → SqlValue
  | vnull : SqlValue
deriving DecidableEq

/-- A pandas `DataFrame`: named columns and rows of values, row `i`
positionally aligned with `cols`. -/
structure DataFrame : Type where
  cols : List String
  rows : List (List SqlValue)
deriving DecidableEq

/-- Backend state of one table: its columns and its stored rows, in
insertion order. -/
structure TableState : Type where
  columns : List Column
  rows : List (List SqlValue)
deriving DecidableEq

/-- The relational backend: tables by name, in creation order. -/
abbrev Db : Type := List (String × TableState)

/-- Look a table up by name. -/
def dbLookup : Db → String → Option TableState
  | [], _ => none
  | (n, ts) :: rest, name => if n = name then some ts else dbLookup rest name

/-- Replace the state of the named table, keeping its position. -/
def dbUpdate : Db → String → TableState → Db
  | [], _, _ => []
  | (n, ts) :: rest, name, new =>
      if n = name then (n, new) :: rest else (n, ts) :: dbUpdate rest name new

/-- Remove the named table. -/
def dbRemove : Db → String → Db
  | [], _ => []
  | (n, ts) :: rest, name =>
      if n = name then rest else (n, ts) :: dbRemove rest name

/-- Backend (SQLAlchemy / database driver) exceptions. -/
inductive SqlError : Type
  | tableAlreadyExists : String → SqlError
  | noSuchTable : String → SqlError
  | noSuchColumn : String → String → SqlError
  | notNullConstraint : String → String → SqlError
  | operationalError : String → SqlError
deriving DecidableEq

/-- Errors surfaced to Python callers.  `daoError` is the
`raise DaoError(sql_exp)` wrapper of `SqlRepository.save` (the spec
`StorageError`); `backendError` is a backend exception propagating
unwrapped; `notImplementedError` is `raise NotImplementedError` (the spec
`UnsupportedOperationError`). -/
inductive PyError : Type
  | daoError : SqlError → PyError
  | backendError : SqlError → PyError
  | notImplementedError : PyError
deriving DecidableEq

/-- SQLAlchemy `Table.create(bind, checkfirst)`: emits `CREATE TABLE`,
guarded by an existence check only when `checkfirst` is true (the
default is `checkfirst = false`). -/
def Table.create (t : Table) (checkfirst : Bool) (db : Db) : Except SqlError Db :=
  match dbLookup db t.name with
  | some _ => if checkfirst then .ok db else .error (.tableAlreadyExists t.name)
  | none => .ok (db ++ [(t.name, ⟨t.columns, []⟩)])

/-- SQLAlchemy `Table.drop(bind, checkfirst)`: emits `DROP TABLE`,
guarded by an existence check only when `checkfirst` is true (the
default is `checkfirst = false`). -/
def Table.drop (t : Table) (checkfirst : Bool) (db : Db) : Except SqlError Db :=
  match dbLookup db t.name with
  | some _ => .ok (dbRemove db t.name)
  | none => if checkfirst then .ok db else .error (.noSuchTable t.name)

/-- Value a frame supplies for column `cname` in row `row`: the value at
the position of `cname` in the frame columns, NULL when the frame has no
such column. -/
def valueFor (pcols : List String) (row : List SqlValue) (cname : String) : SqlValue :=
  ((pcols.zip row).lookup cname).getD SqlValue.vnull

/-- Values of one frame column, per row. -/
def columnValues (payload : DataFrame) (cname : String) : List SqlValue :=
  payload.rows.map (fun r => valueFor payload.cols r cname)

/-- Column type pandas infers for a frame column when it has to create
the table: the type of the first non-NULL value, TEXT when all are NULL. -/
def inferColType (vals : List SqlValue) : ColType :=
  match vals.find? (fun v => match v with | .vnull => false | _ => true) with
  | some (.vint _) => .integer
  | some (.vfloat _) => .float
  | _ => .string

/-- Schema pandas builds from a frame when creating a missing table
(every column nullable, no primary key). -/
def inferredColumns (payload : DataFrame) : List Column :=
  payload.cols.map (fun c => ⟨c, inferColType (columnValues payload c), true, false⟩)

/-- pandas `DataFrame.to_sql(name, con, if_exists="append", index=False,
method="multi")`: creates the table from the frame when absent; executes
no INSERT for an empty frame; otherwise builds one multi-row INSERT over
the frame columns, which the backend rejects when a frame column is not
a table column or a NOT NULL column receives NULL (statement runs in a
transaction, so on error the database is unchanged). -/
def to_sql (payload : DataFrame) (name : String) (db : Db) : Except SqlError Db :=
  match dbLookup db name with
  | none =>
      let cols := inferredColumns payload
      let newRows := payload.rows.map (fun r => cols.map (fun c => valueFor payload.cols r c.name))
      .ok (db ++ [(name, ⟨cols, newRows⟩)])
  | some ts =>
      if payload.rows.isEmpty then .ok db
      else
        match payload.cols.find? (fun c => !(ts.columns.any (fun tc => tc.name == c))) with
        | some badc => .error (.noSuchColumn name badc)
        | none =>
            match ts.columns.find?
                (fun c => !c.nullable &&
                  payload.rows.any (fun r => valueFor payload.cols r c.name == SqlValue.vnull)) with
            | some badc => .error (.notNullConstraint name badc.name)
            | none =>
                let newRows :=
                  payload.rows.map (fun r => ts.columns.map (fun c => valueFor payload.cols r c.name))
                .ok (dbUpdate db name ⟨ts.columns, ts.rows ++ newRows⟩)

/-- Equality on `Except` results is decidable when it is on both sides. -/
def exceptDecEq {ε α : Type} [DecidableEq ε] [DecidableEq α] :
    (a b : Except ε α) → Decidable (a = b)
  | .error e, .error f =>
      if h : e = f then .isTrue (by rw [h]) else .isFalse (by intro hh; cases hh; exact h rfl)
  | .error _, .ok _ => .isFalse (by intro hh; cases hh)
  | .ok _, .error _ => .isFalse (by intro hh; cases hh)
  | .ok a, .ok b =>
      if h : a = b then .isTrue (by rw [h]) else .isFalse (by intro hh; cases hh; exact h rfl)

instance {ε α : Type} [DecidableEq ε] [DecidableEq α] : DecidableEq (Except ε α) :=
  exceptDecEq

/-- Fuel-driven worker for `chunked`: peels `k` elements per step, with
enough fuel to consume the whole list. -/
def chunkedGo {α : Type} (k : Nat) : Nat → List α → List (List α)
  | _, [] => []
  | 0, _ :: _ => []
  | n + 1, a :: rest => ((a :: rest).take k) :: chunkedGo k n ((a :: rest).drop k)

/-- Split a list into consecutive pieces of `k` elements (last piece
shorter); degenerate `k = 0` produces nothing. -/
def chunked {α : Type} (k : Nat) (l : List α) : List (List α) :=
  match k with
  | 0 => []
  | _ + 1 => chunkedGo k l.length l

/-- pandas `pd.read_sql(tablename, con, chunksize)`: streams the stored
rows of the table, in insertion order, as frames of `chunksize` rows
each; an empty result yields no chunk; a missing table raises a backend
error. -/
def read_sql (tablename : String) (db : Db) (chunksize : Nat) : Except SqlError (List DataFrame) :=
  match dbLookup db tablename with
  | none => .error (.noSuchTable tablename)
  | some ts => .ok ((chunked chunksize ts.rows).map (fun rs => ⟨ts.columns.map (fun c => c.name), rs⟩))

/-- Python `"ctd"`. -/
def CTD_TABLE_NAME : String := "ctd"

/-- The CTD DAO repository schema. -/
def CTD_DAO_TABLE : Table :=
  ⟨CTD_TABLE_NAME,
    [⟨"digest", .string, false, false⟩,
     ⟨"genesymbol", .string, true, false⟩,
     ⟨"geneid", .integer, false, false⟩,
     ⟨"diseasename", .string, true, false⟩,
     ⟨"diseaseid", .string, false, false⟩,
     ⟨"pmids", .string, false, false⟩]⟩

/-- Python `"pubmed"`. -/
def PUBMED_TABLE_NAME : String := "pubmed"

/-- The PUBMED DAO repository schema. -/
def PUBMED_DAO_TABLE : Table :=
  ⟨PUBMED_TABLE_NAME,
    [⟨"pmid", .integer, false, false⟩,
     ⟨"date_completed", .string, true, false⟩,
     ⟨"pub_model", .string, true, false⟩,
     ⟨"title", .string, true, false⟩,
     ⟨"iso_abbreviation", .string, true, false⟩,
     ⟨"article_title", .string, true, false⟩,
     ⟨"abstract", .string, true, false⟩,
     ⟨"authors", .string, true, false⟩,
     ⟨"language", .string, true, false⟩,
     ⟨"chemicals", .string, true, false⟩,
     ⟨"mesh_list", .string, true, false⟩]⟩

/-- Python `"classifier"`. -/
def CLSFR_TABLE_NAME : String := "classifier"

/-- The classifier output DAO repository schema. -/
def CLSFR_DAO_TABLE : Table :=
  ⟨CLSFR_TABLE_NAME,
    [⟨"digest", .string, false, false⟩,
     ⟨"pub_score", .float, false, false⟩,
     ⟨"ct_score", .float, false, false⟩]⟩

/-- `SqlRepository` instance state: the slots `_tablename`, `_table` and
the engine target set by `__init__`. -/
structure SqlRepository : Type where
  tablename : String
  table : Table
  dbLoc : String
deriving DecidableEq

/-- `SqlRepository.__init__(db_loc, tablename, table)`: stores the slots,
creates the engine and issues `self._table.create(self._engine)` — an
unconditional create (`checkfirst` left at false), whose failure
propagates out of the constructor unwrapped. -/
def SqlRepository.init (db_loc tablename : String) (table : Table) (db : Db) :
    (Except PyError SqlRepository) × Db :=
  match table.create false db with
  | .ok db1 => (.ok ⟨tablename, table, db_loc⟩, db1)
  | .error e => (.error (.backendError e), db)

/-- `SqlRepository.save(payload)`: `payload.to_sql(self._tablename, ...,
if_exists="append", index=False, method="multi")`; any exception is
caught and re-raised as `DaoError(sql_exp)`. -/
def SqlRepository.save (repo : SqlRepository) (payload : DataFrame) (db : Db) :
    (Except PyError Unit) × SqlRepository × Db :=
  match to_sql payload repo.tablename db with
  | .ok db1 => (.ok (), repo, db1)
  | .error e => (.error (.daoError e), repo, db)

/-- `SqlRepository.delete_all()`: `self._table.drop(self._engine)` then
`self._table.create(self._engine)`, both unconditional and both
propagating backend failures unwrapped. -/
def SqlRepository.delete_all (repo : SqlRepository) (db : Db) :
    (Except PyError Unit) × SqlRepository × Db :=
  match repo.table.drop false db with
  | .error e => (.error (.backendError e), repo, db)
  | .ok db1 =>
      match repo.table.create false db1 with
      | .error e => (.error (.backendError e), repo, db1)
      | .ok db2 => (.ok (), repo, db2)

/-- `SqlRepository.query(query, chunksize)`: with no query string,
`pd.read_sql(self._tablename, con, chunksize)`; with a query string,
`pd.read_sql_query(query, engine, chunksize)` — the raw SQL dialect is
backend-native, so the evaluator for query strings is a parameter
`evalSql`; no exception is caught. -/
def SqlRepository.query (repo : SqlRepository)
    (evalSql : String → Db → Except SqlError DataFrame)
    (query : Option String) (chunksize : Nat) (db : Db) :
    (Except PyError (List DataFrame)) × SqlRepository × Db :=
  match query with
  | none =>
      match read_sql repo.tablename db chunksize with
      | .ok chunks => (.ok chunks, repo, db)
      | .error e => (.error (.backendError e), repo, db)
  | some s =>
      match evalSql s db with
      | .ok frame => (.ok ((chunked chunksize frame.rows).map (fun rs => ⟨frame.cols, rs⟩)), repo, db)
      | .error e => (.error (.backendError e), repo, db)

/-- `GbqRepository` instance state: slots `_tablename`, `_table`,
`_proj`; the `_credentials` slot is declared but never assigned (the
assignment is commented out), modelled as `none`. -/
structure GbqRepository : Type where
  tablename : String
  table : Table
  proj : String
  credentials : Option String
deriving DecidableEq

/-- `GbqRepository.__init__(db_loc, tablename, table, credentials_path)`:
stores `_tablename`, `_table`, `_proj := db_loc`; the credential
resolution from `credentials_path` is commented out, so the path is
ignored and no backend call is made. -/
def GbqRepository.init (db_loc tablename : String) (table : Table)
    (credentials_path : String) (db : Db) : GbqRepository × Db :=
  (⟨tablename, table, db_loc, none⟩, db)

/-- `GbqRepository.save`: body is `raise NotImplementedError`. -/
def GbqRepository.save (repo : GbqRepository) (payload : DataFrame) (db : Db) :
    (Except PyError Unit) × GbqRepository × Db :=
  (.error .notImplementedError, repo, db)

/-- `GbqRepository.delete_all`: body is `raise NotImplementedError`. -/
def GbqRepository.delete_all (repo : GbqRepository) (db : Db) :
    (Except PyError Unit) × GbqRepository × Db :=
  (.error .notImplementedError, repo, db)

/-- `GbqRepository.query`: body is `raise NotImplementedError`. -/
def GbqRepository.query (repo : GbqRepository) (query : Option String)
    (chunksize : Nat) (db : Db) :
    (Except PyError (List DataFrame)) × GbqRepository × Db :=
  (.error .notImplementedError, repo, db)

/-- Rows of a chunk sequence, concatenated in the order produced. -/
def flattenChunks (chunks : List DataFrame) : List (List SqlValue) :=
  (chunks.map DataFrame.rows).flatten

/-- A sample repository over the CTD schema, used in concrete checks. -/
def sampleRepo : SqlRepository := ⟨"ctd", CTD_DAO_TABLE, "sqlite:///genie.db"⟩

/-- Backend state holding an empty CTD table. -/
def sampleDb : Db := [("ctd", ⟨CTD_DAO_TABLE.columns, []⟩)]

/-- A record set matching the CTD schema. -/
def samplePayload : DataFrame :=
  ⟨["digest", "genesymbol", "geneid", "diseasename", "diseaseid", "pmids"],
   [[.vstr "d1", .vstr "g1", .vint 1, .vstr "n1", .vstr "D1", .vstr "100"],
    [.vstr "d2", .vstr "g2", .vint 2, .vstr "n2", .vstr "D2", .vstr "200"]]⟩

/-- Backend state holding a CTD table with two stored rows. -/
def sampleDb2 : Db := [("ctd", ⟨CTD_DAO_TABLE.columns, samplePayload.rows⟩)]

/-- A query evaluator standing in for a backend SQL dialect. -/
def sampleEvalSql : String → Db → Except SqlError DataFrame :=
  fun _ _ => .error (.operationalError "connection lost")

/-- A record set with a column the CTD schema does not have. -/
def bogusPayload : DataFrame := ⟨["bogus"], [[.vstr "x"]]⟩

theorem chunkedGo_nil {α : Type} (k n : Nat) : chunkedGo k n ([] : List α) = [] := by
  cases n <;> rfl

theorem chunkedGo_ne_nil {α : Type} (k n : Nat) (l : List α) (hl : l ≠ [])
    (hn : l.length ≤ n) : chunkedGo k n l ≠ [] := by
  cases n with
  | zero =>
      cases l with
      | nil => exact absurd rfl hl
      | cons a rest => simp at hn
  | succ n =>
      cases l with
      | nil => exact absurd rfl hl
      | cons a rest => simp [chunkedGo]

theorem chunkedGo_flatten {α : Type} (k : Nat) (hk : 0 < k) :
    ∀ (n : Nat) (l : List α), l.length ≤ n → (chunkedGo k n l).flatten = l := by
  intro n
  induction n with
  | zero =>
      intro l hl
      have : l = [] := List.eq_nil_of_length_eq_zero (Nat.le_zero.mp hl)
      subst this
      simp [chunkedGo]
  | succ n ih =>
      intro l hl
      cases l with
      | nil => simp [chunkedGo]
      | cons a rest =>
          have hd : ((a :: rest).drop k).length ≤ n := by
            simp only [List.length_drop, List.length_cons]
            simp only [List.length_cons] at hl
            omega
          simp only [chunkedGo, List.flatten_cons]
          rw [ih _ hd, List.take_append_drop]

theorem chunkedGo_length {α : Type} (k : Nat) (hk : 0 < k) :
    ∀ (n : Nat) (l : List α), l.length ≤ n →
      (chunkedGo k n l).length = (l.length + k - 1) / k := by
  intro n
  induction n with
  | zero =>
      intro l hl
      have : l = [] := List.eq_nil_of_length_eq_zero (Nat.le_zero.mp hl)
      subst this
      simp [chunkedGo, Nat.div_eq_of_lt (show k - 1 < k by omega)]
  | succ n ih =>
      intro l hl
      cases l with
      | nil => simp [chunkedGo, Nat.div_eq_of_lt (show k - 1 < k by omega)]
      | cons a rest =>
          have hd : ((a :: rest).drop k).length ≤ n := by
            simp only [List.length_drop, List.length_cons]
            simp only [List.length_cons] at hl
            omega
          simp only [chunkedGo, List.length_cons]
          rw [ih _ hd]
          simp only [List.length_drop, List.length_cons]
          rcases le_or_lt (rest.length + 1) k with h | h
          · have h0 : rest.length + 1 - k = 0 := by omega
            rw [h0]
            have h2 : (0 + k - 1) / k = 0 := Nat.div_eq_of_lt (by omega)
            have h3 : rest.length + 1 + k - 1 = rest.length + k := by omega
            rw [h2, h3, Nat.add_div_right _ hk]
            have h4 : rest.length / k = 0 := Nat.div_eq_of_lt (by omega)
            rw [h4]
          · have h1 : rest.length + 1 - k + k - 1 = rest.length := by omega
            have h3 : rest.length + 1 + k - 1 = rest.length + k := by omega
            rw [h1, h3, Nat.add_div_right _ hk]

theorem chunkedGo_mem_length {α : Type} (k : Nat) (hk : 0 < k) :
    ∀ (n : Nat) (l : List α), l.length ≤ n →
      ∀ c ∈ chunkedGo k n l, c.length ≤ k ∧ 0 < c.length := by
  intro n
  induction n with
  | zero =>
      intro l hl
      have : l = [] := List.eq_nil_of_length_eq_zero (Nat.le_zero.mp hl)
      subst this
      simp [chunkedGo]
  | succ n ih =>
      intro l hl
      cases l with
      | nil => simp [chunkedGo]
      | cons a rest =>
          have hd : ((a :: rest).drop k).length ≤ n := by
            simp only [List.length_drop, List.length_cons]
            simp only [List.length_cons] at hl
            omega
          intro c hc
          simp only [chunkedGo, List.mem_cons] at hc
          rcases hc with hc | hc
          · subst hc
            constructor
            · simp only [List.length_take]
              exact Nat.min_le_left k (a :: rest).length
            · simp only [List.length_take]
              have : 0 < (a :: rest).length := by simp
              omega
          · exact ih _ hd c hc

theorem chunkedGo_dropLast_length {α : Type} (k : Nat) (hk : 0 < k) :
    ∀ (n : Nat) (l : List α), l.length ≤ n →
      ∀ c ∈ (chunkedGo k n l).dropLast, c.length = k := by
  intro n
  induction n with
  | zero =>
      intro l hl
      have : l = [] := List.eq_nil_of_length_eq_zero (Nat.le_zero.mp hl)
      subst this
      simp [chunkedGo]
  | succ n ih =>
      intro l hl
      cases l with
      | nil => simp [chunkedGo]
      | cons a rest =>
          have hd : ((a :: rest).drop k).length ≤ n := by
            simp only [List.length_drop, List.length_cons]
            simp only [List.length_cons] at hl
            omega
          by_cases hr : (a :: rest).drop k = []
          · simp [chunkedGo, hr, chunkedGo_nil]
          · have hne : chunkedGo k n ((a :: rest).drop k) ≠ [] :=
              chunkedGo_ne_nil k n _ hr hd
            intro c hc
            simp only [chunkedGo] at hc
            rw [List.dropLast_cons_of_ne_nil hne] at hc
            rcases List.mem_cons.mp hc with hc | hc
            · subst hc
              have hlt : k < (a :: rest).length := by
                by_contra hle
                push_neg at hle
                exact hr (List.drop_eq_nil_of_le hle)
              simp only [List.length_take]
              exact Nat.min_eq_left (Nat.le_of_lt hlt)
            · exact ih _ hd c hc

theorem chunked_flatten {α : Type} (k : Nat) (hk : 0 < k) (l : List α) :
    (chunked k l).flatten = l := by
  cases k with
  | zero => omega
  | succ k => exact chunkedGo_flatten _ hk _ l (Nat.le_refl _)

theorem chunked_length {α : Type} (k : Nat) (hk : 0 < k) (l : List α) :
    (chunked k l).length = (l.length + k - 1) / k := by
  cases k with
  | zero => omega
  | succ k => exact chunkedGo_length _ hk _ l (Nat.le_refl _)

theorem chunked_mem_length {α : Type} (k : Nat) (hk : 0 < k) (l : List α) :
    ∀ c ∈ chunked k l, c.length ≤ k ∧ 0 < c.length := by
  cases k with
  | zero => omega
  | succ k => exact chunkedGo_mem_length _ hk _ l (Nat.le_refl _)

theorem chunked_dropLast_length {α : Type} (k : Nat) (hk : 0 < k) (l : List α) :
    ∀ c ∈ (chunked k l).dropLast, c.length = k := by
  cases k with
  | zero => omega
  | succ k => exact chunkedGo_dropLast_length _ hk _ l (Nat.le_refl _)

theorem chunked_nil {α : Type} (k : Nat) : chunked k ([] : List α) = [] := by
  cases k <;> rfl

theorem map_dropLast {α β : Type} (f : α → β) (l : List α) :
    (l.map f).dropLast = l.dropLast.map f := by
  induction l with
  | nil => rfl
  | cons a rest ih =>
      cases rest with
      | nil => rfl
      | cons b t =>
          simp only [List.map_cons]
          rw [List.dropLast_cons_of_ne_nil (List.cons_ne_nil _ _),
            List.dropLast_cons_of_ne_nil (List.cons_ne_nil _ _)]
          simp only [List.map_cons] at ih ⊢
          rw [ih]

theorem flattenChunks_mk (names : List String) (k : Nat) (hk : 0 < k)
    (R : List (List SqlValue)) :
    flattenChunks ((chunked k R).map (fun rs => (⟨names, rs⟩ : DataFrame))) = R := by
  simp only [flattenChunks, List.map_map]
  have h : (DataFrame.rows ∘ fun rs => (⟨names, rs⟩ : DataFrame)) = id := rfl
  rw [h, List.map_id]
  exact chunked_flatten k hk R

theorem dbLookup_update_self (db : Db) (name : String) (ts0 ts : TableState)
    (h : dbLookup db name = some ts0) :
    dbLookup (dbUpdate db name ts) name = some ts := by
  induction db with
  | nil => simp [dbLookup] at h
  | cons e rest ih =>
      obtain ⟨n, t⟩ := e
      by_cases hn : n = name
      · subst hn
        simp [dbUpdate, dbLookup]
      · simp only [dbLookup, if_neg hn] at h
        simp only [dbUpdate, if_neg hn, dbLookup, if_neg hn]
        exact ih h

theorem dbUpdate_self (db : Db) (name : String) (ts : TableState)
    (h : dbLookup db name = some ts) : dbUpdate db name ts = db := by
  induction db with
  | nil => simp [dbLookup] at h
  | cons e rest ih =>
      obtain ⟨n, t⟩ := e
      by_cases hn : n = name
      · subst hn
        have h2 : t = ts := by simpa [dbLookup] using h
        subst h2
        simp [dbUpdate]
      · simp only [dbLookup, if_neg hn] at h
        simp only [dbUpdate, if_neg hn]
        rw [ih h]

theorem dbLookup_eq_none_of_not_mem (db : Db) (name : String)
    (h : name ∉ db.map Prod.fst) : dbLookup db name = none := by
  induction db with
  | nil => rfl
  | cons e rest ih =>
      obtain ⟨n, t⟩ := e
      simp only [List.map_cons, List.mem_cons] at h
      push_neg at h
      simp only [dbLookup]
      rw [if_neg (fun (hn : n = name) => h.1 hn.symm)]
      exact ih h.2

theorem dbLookup_remove_self (db : Db) (name : String)
    (hnd : (db.map Prod.fst).Nodup) : dbLookup (dbRemove db name) name = none := by
  induction db with
  | nil => rfl
  | cons e rest ih =>
      obtain ⟨n, t⟩ := e
      simp only [List.map_cons, List.nodup_cons] at hnd
      by_cases hn : n = name
      · subst hn
        simp only [dbRemove, if_pos rfl]
        exact dbLookup_eq_none_of_not_mem rest n hnd.1
      · simp only [dbRemove, if_neg hn, dbLookup, if_neg hn]
        exact ih hnd.2

theorem dbLookup_append_right (a b : Db) (name : String)
    (h : dbLookup a name = none) : dbLookup (a ++ b) name = dbLookup b name := by
  induction a with
  | nil => rfl
  | cons e rest ih =>
      obtain ⟨n, t⟩ := e
      by_cases hn : n = name
      · simp [dbLookup, if_pos hn] at h
      · simp only [dbLookup, if_neg hn] at h
        simp only [List.cons_append, dbLookup, if_neg hn]
        exact ih h

theorem valueFor_cons_ne (n0 : String) (v0 : SqlValue) (ns : List String)
    (vs : List SqlValue) (n : String) (hne : n0 ≠ n) :
    valueFor (n0 :: ns) (v0 :: vs) n = valueFor ns vs n := by
  simp only [valueFor, List.zip_cons_cons, List.lookup,
    show (n == n0) = false from beq_eq_false_iff_ne.mpr (Ne.symm hne)]
  rfl

theorem valueFor_map_self (names : List String) (r : List SqlValue)
    (hnd : names.Nodup) (hlen : r.length = names.length) :
    names.map (fun n => valueFor names r n) = r := by
  induction names generalizing r with
  | nil =>
      have : r = [] := List.eq_nil_of_length_eq_zero hlen
      subst this
      rfl
  | cons n0 ns ih =>
      cases r with
      | nil => simp at hlen
      | cons v0 vs =>
          simp only [List.length_cons] at hlen
          simp only [List.nodup_cons] at hnd
          simp only [List.map_cons]
          congr 1
          · simp [valueFor, List.lookup]
          · have hcong : ∀ n ∈ ns,
                valueFor (n0 :: ns) (v0 :: vs) n = valueFor ns vs n := by
              intro n hn
              exact valueFor_cons_ne n0 v0 ns vs n (fun he => hnd.1 (he ▸ hn))
            rw [List.map_congr_left hcong]
            exact ih vs hnd.2 (by omega)

theorem valueFor_not_mem (pcols : List String) (r : List SqlValue) (cname : String)
    (h : cname ∉ pcols) : valueFor pcols r cname = SqlValue.vnull := by
  induction pcols generalizing r with
  | nil => simp [valueFor, List.lookup]
  | cons p ps ih =>
      simp only [List.mem_cons] at h
      push_neg at h
      cases r with
      | nil => simp [valueFor, List.lookup]
      | cons v vs =>
          rw [valueFor_cons_ne p v ps vs cname (Ne.symm h.1)]
          exact ih vs h.2

theorem to_sql_ok (name : String) (payload : DataFrame) (cols : List Column)
    (rows : List (List SqlValue)) (db : Db)
    (hdb : dbLookup db name = some ⟨cols, rows⟩)
    (hcols : payload.cols = cols.map Column.name)
    (hnd : (cols.map Column.name).Nodup)
    (hlen : ∀ r ∈ payload.rows, r.length = payload.cols.length)
    (hnn : ∀ c ∈ cols, c.nullable = false →
      ∀ r ∈ payload.rows, valueFor payload.cols r c.name ≠ SqlValue.vnull) :
    to_sql payload name db = .ok (dbUpdate db name ⟨cols, rows ++ payload.rows⟩) := by
  by_cases he : payload.rows = []
  · simp only [to_sql, hdb, he, List.isEmpty_nil, if_true, List.append_nil]
    rw [dbUpdate_self db name _ hdb]
  · have hne2 : payload.rows.isEmpty = false := by
      cases hr : payload.rows with
      | nil => exact absurd hr he
      | cons a l => rfl
    have hfind1 : payload.cols.find?
        (fun c => !(cols.any (fun tc => tc.name == c))) = none := by
      rw [List.find?_eq_none]
      intro c hc
      rw [hcols] at hc
      obtain ⟨col, hcol, rfl⟩ := List.mem_map.mp hc
      simp only [Bool.not_eq_true', Bool.not_eq_false, List.any_eq_true]
      exact ⟨col, hcol, by simp⟩
    have hfind2 : cols.find?
        (fun c => !c.nullable &&
          payload.rows.any (fun r => valueFor payload.cols r c.name == SqlValue.vnull)) =
        none := by
      rw [List.find?_eq_none]
      intro c hc
      simp only [Bool.and_eq_true, Bool.not_eq_true', List.any_eq_true, not_and]
      intro hnul
      rintro ⟨r, hr, hv⟩
      exact hnn c hc hnul r hr (beq_iff_eq.mp hv)
    have hone : ∀ r ∈ payload.rows,
        cols.map (fun c => valueFor payload.cols r c.name) = r := by
      intro r hr
      have h1 : cols.map (fun c => valueFor payload.cols r c.name)
          = (cols.map Column.name).map (fun n => valueFor payload.cols r n) := by
        rw [List.map_map]
        rfl
      rw [h1, ← hcols]
      have hnd2 : payload.cols.Nodup := by rw [hcols]; exact hnd
      exact valueFor_map_self payload.cols r hnd2 (hlen r hr)
    have hrows : payload.rows.map
        (fun r => cols.map (fun c => valueFor payload.cols r c.name)) = payload.rows := by
      have h2 := List.map_congr_left hone
      rw [h2]
      simp
    simp only [to_sql, hdb, hne2, Bool.false_eq_true, if_false, hfind1, hfind2, hrows]

/-- C1: saving a record set whose columns match the repository schema and
then querying with no filter returns every pre-existing row followed by
every saved row, in order — so the result is a superset of the saved rows
and `save` neither overwrites nor deduplicates existing rows. -/
theorem save_then_query_superset
    (evalSql : String → Db → Except SqlError DataFrame)
    (repo : SqlRepository) (payload : DataFrame) (db : Db)
    (rows0 : List (List SqlValue))
    (hdb : dbLookup db repo.tablename = some ⟨repo.table.columns, rows0⟩)
    (hcols : payload.cols = repo.table.columns.map Column.name)
    (hnd : (repo.table.columns.map Column.name).Nodup)
    (hlen : ∀ r ∈ payload.rows, r.length = payload.cols.length)
    (hnn : ∀ c ∈ repo.table.columns, c.nullable = false →
      ∀ r ∈ payload.rows, valueFor payload.cols r c.name ≠ SqlValue.vnull)
    (k : Nat) (hk : 0 < k) :
    ∃ db1, repo.save payload db = (.ok (), repo, db1) ∧
      ∃ chunks, repo.query evalSql none k db1 = (.ok chunks, repo, db1) ∧
        flattenChunks chunks = rows0 ++ payload.rows ∧
        ∀ r ∈ payload.rows, r ∈ flattenChunks chunks := by
  have hsql := to_sql_ok repo.tablename payload repo.table.columns rows0 db hdb hcols hnd hlen hnn
  refine ⟨dbUpdate db repo.tablename ⟨repo.table.columns, rows0 ++ payload.rows⟩, ?_, ?_⟩
  · simp only [SqlRepository.save, hsql]
  · have hlook := dbLookup_update_self db repo.tablename _
      ⟨repo.table.columns, rows0 ++ payload.rows⟩ hdb
    refine ⟨(chunked k (rows0 ++ payload.rows)).map
        (fun rs => ⟨repo.table.columns.map (fun c => c.name), rs⟩), ?_, ?_, ?_⟩
    · simp only [SqlRepository.query, read_sql, hlook]
    · exact flattenChunks_mk _ k hk _
    · intro r hr
      rw [flattenChunks_mk _ k hk _]
      exact List.mem_append.mpr (Or.inr hr)

/-- C2: querying with no filter and a positive chunk size `k` over a table
of `N` stored rows yields exactly `(N + k - 1) / k` chunks (the ceiling of
`N / k`), every chunk before the last has exactly `k` rows, every chunk
has at most `k` rows, and concatenating the chunks in order reproduces the
stored rows in insertion order. -/
theorem query_chunking
    (evalSql : String → Db → Except SqlError DataFrame)
    (repo : SqlRepository) (db : Db) (cols : List Column)
    (rows : List (List SqlValue)) (k : Nat)
    (hdb : dbLookup db repo.tablename = some ⟨cols, rows⟩) (hk : 0 < k) :
    ∃ chunks, repo.query evalSql none k db = (.ok chunks, repo, db) ∧
      chunks.length = (rows.length + k - 1) / k ∧
      (∀ c ∈ chunks.dropLast, c.rows.length = k) ∧
      (∀ c ∈ chunks, c.rows.length ≤ k) ∧
      flattenChunks chunks = rows := by
  refine ⟨(chunked k rows).map (fun rs => ⟨cols.map (fun c => c.name), rs⟩),
    ?_, ?_, ?_, ?_, ?_⟩
  · simp only [SqlRepository.query, read_sql, hdb]
  · rw [List.length_map]
    exact chunked_length k hk rows
  · intro c hc
    rw [map_dropLast] at hc
    obtain ⟨rs, hrs, rfl⟩ := List.mem_map.mp hc
    exact chunked_dropLast_length k hk rows rs hrs
  · intro c hc
    obtain ⟨rs, hrs, rfl⟩ := List.mem_map.mp hc
    exact (chunked_mem_length k hk rows rs hrs).1
  · exact flattenChunks_mk _ k hk _

/-- C3: on a repository whose table exists (and whose backend has unique
table names), `delete_all` succeeds, recreates the table empty with the
repository schema, a following no-filter `query` yields zero chunks, and a
following `save` of a schema-matching record set is still accepted. -/
theorem delete_all_then_query_empty
    (evalSql : String → Db → Except SqlError DataFrame)
    (repo : SqlRepository) (db : Db) (ts : TableState)
    (payload : DataFrame) (k : Nat)
    (hname : repo.tablename = repo.table.name)
    (hkeys : (db.map Prod.fst).Nodup)
    (hdb : dbLookup db repo.table.name = some ts)
    (hk : 0 < k)
    (hcols : payload.cols = repo.table.columns.map Column.name)
    (hnd : (repo.table.columns.map Column.name).Nodup)
    (hlen : ∀ r ∈ payload.rows, r.length = payload.cols.length)
    (hnn : ∀ c ∈ repo.table.columns, c.nullable = false →
      ∀ r ∈ payload.rows, valueFor payload.cols r c.name ≠ SqlValue.vnull) :
    ∃ db1, repo.delete_all db = (.ok (), repo, db1) ∧
      dbLookup db1 repo.table.name = some ⟨repo.table.columns, []⟩ ∧
      repo.query evalSql none k db1 = (.ok [], repo, db1) ∧
      ∃ db2, repo.save payload db1 = (.ok (), repo, db2) := by
  have hrem : dbLookup (dbRemove db repo.table.name) repo.table.name = none :=
    dbLookup_remove_self db repo.table.name hkeys
  have hlook1 : dbLookup
      (dbRemove db repo.table.name ++ [(repo.table.name, ⟨repo.table.columns, []⟩)])
      repo.table.name = some ⟨repo.table.columns, []⟩ := by
    rw [dbLookup_append_right _ _ _ hrem]
    simp [dbLookup]
  refine ⟨dbRemove db repo.table.name ++ [(repo.table.name, ⟨repo.table.columns, []⟩)],
    ?_, hlook1, ?_, ?_⟩
  · simp only [SqlRepository.delete_all, Table.drop, Table.create, hdb, hrem]
  · simp only [SqlRepository.query, read_sql, hname, hlook1, chunked_nil, List.map_nil]
  · have hdb1 : dbLookup
        (dbRemove db repo.table.name ++ [(repo.table.name, ⟨repo.table.columns, []⟩)])
        repo.tablename = some ⟨repo.table.columns, []⟩ := by
      rw [hname]
      exact hlook1
    have hsql := to_sql_ok repo.tablename payload repo.table.columns [] _ hdb1 hcols hnd hlen hnn
    exact ⟨dbUpdate
        (dbRemove db repo.table.name ++ [(repo.table.name, ⟨repo.table.columns, []⟩)])
        repo.tablename ⟨repo.table.columns, [] ++ payload.rows⟩,
      by simp only [SqlRepository.save, hsql]⟩

/-- C4: `save` surfaces every backend write failure, and only those, as a
`DaoError` (the spec `StorageError`) wrapping the originating backend
exception, leaving the repository and the backend state unchanged; `save`
raises no other kind of error. -/
theorem save_wraps_backend_failures
    (repo : SqlRepository) (payload : DataFrame) (db : Db) :
    (∀ e, to_sql payload repo.tablename db = .error e →
       repo.save payload db = (.error (.daoError e), repo, db)) ∧
    (∀ pe repo1 db1, repo.save payload db = (.error pe, repo1, db1) →
       ∃ e, pe = .daoError e ∧ to_sql payload repo.tablename db = .error e ∧
         repo1 = repo ∧ db1 = db) := by
  constructor
  · intro e he
    simp only [SqlRepository.save, he]
  · intro pe repo1 db1 h
    cases hs : to_sql payload repo.tablename db with
    | ok d =>
        simp only [SqlRepository.save, hs, Prod.mk.injEq] at h
        exact absurd h.1 (by simp)
    | error e =>
        simp only [SqlRepository.save, hs, Prod.mk.injEq, Except.error.injEq] at h
        exact ⟨e, h.1.symm, rfl, h.2.1.symm, h.2.2.symm⟩

/-- C5: every operation of the warehouse adapter — `save`, `delete_all`
and `query` — fails with `NotImplementedError` (the spec
`UnsupportedOperationError`), never silently no-ops, and leaves the
repository and the backend state unchanged. -/
theorem gbq_ops_unsupported
    (repo : GbqRepository) (payload : DataFrame) (q : Option String)
    (k : Nat) (db : Db) :
    repo.save payload db = (.error .notImplementedError, repo, db) ∧
    repo.delete_all db = (.error .notImplementedError, repo, db) ∧
    repo.query q k db = (.error .notImplementedError, repo, db) :=
  ⟨rfl, rfl, rfl⟩

/-- C6 counterexample: constructing a relational repository at a location
where the table already exists fails with the backend error, refuting the
claim that construction succeeds both when the table is absent and when a
table of that name already exists. -/
theorem init_existing_table_cex :
    SqlRepository.init "sqlite:///genie.db" "ctd" CTD_DAO_TABLE sampleDb =
      (.error (.backendError (.tableAlreadyExists "ctd")), sampleDb) := by decide

/-- C6 amended: construction issues an unconditional create-table (the
`checkfirst` flag is left at its false default): it succeeds and creates
the table when it is absent, and fails with the backend error, leaving
the state unchanged, when a table of that name already exists. -/
theorem init_create_unconditional
    (db_loc tablename : String) (table : Table) (db : Db) :
    (dbLookup db table.name = none →
       SqlRepository.init db_loc tablename table db =
         (.ok ⟨tablename, table, db_loc⟩, db ++ [(table.name, ⟨table.columns, []⟩)])) ∧
    (∀ ts, dbLookup db table.name = some ts →
       SqlRepository.init db_loc tablename table db =
         (.error (.backendError (.tableAlreadyExists table.name)), db)) := by
  constructor
  · intro h
    simp only [SqlRepository.init, Table.create, h]
  · intro ts h
    simp only [SqlRepository.init, Table.create, h, Bool.false_eq_true, if_false]

/-- C7: on the relational adapter an error result of `delete_all` or
`query` is always an unwrapped backend exception, while an error result
of `save` is always a wrapping `DaoError`. -/
theorem only_save_wraps
    (evalSql : String → Db → Except SqlError DataFrame)
    (repo : SqlRepository) (payload : DataFrame)
    (q : Option String) (k : Nat) (db : Db) :
    (∀ pe repo1 db1, repo.delete_all db = (.error pe, repo1, db1) →
       ∃ e, pe = .backendError e) ∧
    (∀ pe repo1 db1, repo.query evalSql q k db = (.error pe, repo1, db1) →
       ∃ e, pe = .backendError e) ∧
    (∀ pe repo1 db1, repo.save payload db = (.error pe, repo1, db1) →
       ∃ e, pe = .daoError e) := by
  refine ⟨?_, ?_, ?_⟩
  · intro pe r1 d1 h
    cases h1 : repo.table.drop false db with
    | error e =>
        simp only [SqlRepository.delete_all, h1, Prod.mk.injEq, Except.error.injEq] at h
        exact ⟨e, h.1.symm⟩
    | ok d2 =>
        cases h2 : repo.table.create false d2 with
        | error e =>
            simp only [SqlRepository.delete_all, h1, h2, Prod.mk.injEq,
              Except.error.injEq] at h
            exact ⟨e, h.1.symm⟩
        | ok d3 =>
            simp only [SqlRepository.delete_all, h1, h2, Prod.mk.injEq] at h
            exact absurd h.1 (by simp)
  · intro pe r1 d1 h
    cases q with
    | none =>
        cases h1 : read_sql repo.tablename db k with
        | error e =>
            simp only [SqlRepository.query, h1, Prod.mk.injEq, Except.error.injEq] at h
            exact ⟨e, h.1.symm⟩
        | ok chunks =>
            simp only [SqlRepository.query, h1, Prod.mk.injEq] at h
            exact absurd h.1 (by simp)
    | some s =>
        cases h1 : evalSql s db with
        | error e =>
            simp only [SqlRepository.query, h1, Prod.mk.injEq, Except.error.injEq] at h
            exact ⟨e, h.1.symm⟩
        | ok fr =>
            simp only [SqlRepository.query, h1, Prod.mk.injEq] at h
            exact absurd h.1 (by simp)
  · intro pe r1 d1 h
    cases h1 : to_sql payload repo.tablename db with
    | error e =>
        simp only [SqlRepository.save, h1, Prod.mk.injEq, Except.error.injEq] at h
        exact ⟨e, h.1.symm⟩
    | ok d2 =>
        simp only [SqlRepository.save, h1, Prod.mk.injEq] at h
        exact absurd h.1 (by simp)

/-- C8 counterexample: a nonempty record set whose column set is a strict
subset of the CTD schema — it lacks the nullable `genesymbol` and
`diseasename` columns — is saved successfully, with NULL filled into the
missing columns, refuting the claim that every record set whose column set
does not match the schema makes `save` fail. -/
theorem save_subset_columns_cex :
    (¬ (["digest", "geneid", "diseaseid", "pmids"] : List String) =
        CTD_DAO_TABLE.columns.map Column.name) ∧
    ("genesymbol" ∈ CTD_DAO_TABLE.columns.map Column.name ∧
      "genesymbol" ∉ (["digest", "geneid", "diseaseid", "pmids"] : List String)) ∧
    SqlRepository.save sampleRepo
        ⟨["digest", "geneid", "diseaseid", "pmids"],
         [[.vstr "d1", .vint 1, .vstr "D1", .vstr "100"]]⟩ sampleDb =
      (.ok (), sampleRepo,
       [("ctd", ⟨CTD_DAO_TABLE.columns,
          [[.vstr "d1", .vnull, .vint 1, .vnull, .vstr "D1", .vstr "100"]]⟩)]) :=
  ⟨by decide, by decide, by decide⟩

/-- C8 amended: saving a nonempty record set fails with a wrapped
`DaoError` and leaves the repository and the table contents unchanged
whenever the record set has a column that is not in the schema, or omits a
non-nullable schema column; a record set that merely omits nullable
columns is accepted, so detection is deferred to the backend and only
these mismatches fail. -/
theorem save_schema_mismatch_fails
    (repo : SqlRepository) (payload : DataFrame) (cols : List Column)
    (rows : List (List SqlValue)) (db : Db)
    (hdb : dbLookup db repo.tablename = some ⟨cols, rows⟩)
    (hne : payload.rows ≠ [])
    (hbad : (∃ c ∈ payload.cols, c ∉ cols.map Column.name) ∨
            (∃ c ∈ cols, c.nullable = false ∧ c.name ∉ payload.cols)) :
    ∃ e, repo.save payload db = (.error (.daoError e), repo, db) := by
  have hne2 : payload.rows.isEmpty = false := by
    cases hr : payload.rows with
    | nil => exact absurd hr hne
    | cons a l => rfl
  cases hf1 : payload.cols.find? (fun c => !(cols.any (fun tc => tc.name == c))) with
  | some badc =>
      exact ⟨.noSuchColumn repo.tablename badc,
        by simp only [SqlRepository.save, to_sql, hdb, hne2, Bool.false_eq_true,
          if_false, hf1]⟩
  | none =>
      rcases hbad with ⟨c, hc, hcnot⟩ | ⟨c, hc, hnul, hcnot⟩
      · exfalso
        have hp := List.find?_eq_none.mp hf1 c hc
        have hany : cols.any (fun tc => tc.name == c) = false := by
          rw [List.any_eq_false]
          intro tc htc
          simp only [beq_iff_eq]
          intro he
          exact hcnot (he ▸ List.mem_map_of_mem Column.name htc)
        rw [hany] at hp
        simp at hp
      · obtain ⟨r, hr⟩ := List.exists_mem_of_ne_nil payload.rows hne
        have hf2 : (cols.find? (fun c => !c.nullable &&
            payload.rows.any
              (fun r => valueFor payload.cols r c.name == SqlValue.vnull))).isSome := by
          rw [List.find?_isSome]
          refine ⟨c, hc, ?_⟩
          simp only [Bool.and_eq_true, Bool.not_eq_true', List.any_eq_true]
          refine ⟨hnul, r, hr, ?_⟩
          rw [valueFor_not_mem payload.cols r c.name hcnot]
          decide
        obtain ⟨badc, hsome⟩ := Option.isSome_iff_exists.mp hf2
        exact ⟨.notNullConstraint repo.tablename badc.name,
          by simp only [SqlRepository.save, to_sql, hdb, hne2, Bool.false_eq_true,
            if_false, hf1, hsome]⟩

/-- C9 counterexample: constructing warehouse repositories that differ
only in the supplied credentials file path yields identical repository
states, and the credentials slot is never populated — the credential
resolution is commented out in the constructor — refuting the claim that
construction resolves credentials from the supplied path. -/
theorem gbq_init_ignores_credentials_cex :
    GbqRepository.init "genie-project" "test.ctd" CTD_DAO_TABLE "/creds/a.json" [] =
      GbqRepository.init "genie-project" "test.ctd" CTD_DAO_TABLE "/creds/b.json" [] ∧
    (GbqRepository.init "genie-project" "test.ctd" CTD_DAO_TABLE
        "/creds/a.json" []).1.credentials = none :=
  ⟨rfl, rfl⟩

/-- C9 amended: constructing a warehouse repository binds the project and
table context and performs no table-creation (or any other backend) side
effect, but it does not resolve credentials: the supplied credentials file
path is ignored and the credentials slot stays unset. -/
theorem gbq_init_binds_context (db_loc tablename : String) (table : Table)
    (credentials_path : String) (db : Db) :
    GbqRepository.init db_loc tablename table credentials_path db =
      (⟨tablename, table, db_loc, none⟩, db) := rfl

/-- C10: on both adapters the `tablename` property returns exactly the
table name supplied at construction, and no call to `save`, `delete_all`
or `query` — succeeding or failing — changes the stored table name or
schema object of the repository. -/
theorem repo_state_immutable
    (evalSql : String → Db → Except SqlError DataFrame)
    (repo : SqlRepository) (grepo : GbqRepository) (payload : DataFrame)
    (q : Option String) (k : Nat) (db : Db)
    (db_loc tablename : String) (table : Table) (credentials_path : String) :
    (repo.save payload db).2.1 = repo ∧
    (repo.delete_all db).2.1 = repo ∧
    (repo.query evalSql q k db).2.1 = repo ∧
    (grepo.save payload db).2.1 = grepo ∧
    (grepo.delete_all db).2.1 = grepo ∧
    (grepo.query q k db).2.1 = grepo ∧
    ((GbqRepository.init db_loc tablename table credentials_path db).1.tablename =
        tablename ∧
      (GbqRepository.init db_loc tablename table credentials_path db).1.table = table) ∧
    (∀ r db1, SqlRepository.init db_loc tablename table db = (.ok r, db1) →
       r.tablename = tablename ∧ r.table = table) := by
  refine ⟨?_, ?_, ?_, rfl, rfl, rfl, ⟨rfl, rfl⟩, ?_⟩
  · cases h : to_sql payload repo.tablename db <;> simp [SqlRepository.save, h]
  · cases h1 : repo.table.drop false db with
    | error e => simp [SqlRepository.delete_all, h1]
    | ok d2 =>
        cases h2 : repo.table.create false d2 <;>
          simp [SqlRepository.delete_all, h1, h2]
  · cases q with
    | none => cases h : read_sql repo.tablename db k <;> simp [SqlRepository.query, h]
    | some s => cases h : evalSql s db <;> simp [SqlRepository.query, h]
  · intro r db1 h
    cases hc : table.create false db with
    | ok d =>
        simp only [SqlRepository.init, hc, Prod.mk.injEq, Except.ok.injEq] at h
        rw [← h.1]
        exact ⟨rfl, rfl⟩
    | error e =>
        simp only [SqlRepository.init, hc, Prod.mk.injEq] at h
        exact absurd h.1 (by simp)

theorem save_then_query_superset_witness :
    ∃ db1, SqlRepository.save sampleRepo samplePayload sampleDb =
        (.ok (), sampleRepo, db1) ∧
      ∃ chunks, SqlRepository.query sampleRepo sampleEvalSql none 2 db1 =
          (.ok chunks, sampleRepo, db1) ∧
        flattenChunks chunks = [] ++ samplePayload.rows ∧
        ∀ r ∈ samplePayload.rows, r ∈ flattenChunks chunks :=
  save_then_query_superset sampleEvalSql sampleRepo samplePayload sampleDb []
    (by decide) (by decide) (by decide) (by decide) (by decide) 2 (by decide)

theorem query_chunking_witness :
    ∃ chunks, SqlRepository.query sampleRepo sampleEvalSql none 1 sampleDb2 =
        (.ok chunks, sampleRepo, sampleDb2) ∧
      chunks.length = (samplePayload.rows.length + 1 - 1) / 1 ∧
      (∀ c ∈ chunks.dropLast, c.rows.length = 1) ∧
      (∀ c ∈ chunks, c.rows.length ≤ 1) ∧
      flattenChunks chunks = samplePayload.rows :=
  query_chunking sampleEvalSql sampleRepo sampleDb2 CTD_DAO_TABLE.columns
    samplePayload.rows 1 (by decide) (by decide)

theorem delete_all_then_query_empty_witness :
    ∃ db1, SqlRepository.delete_all sampleRepo sampleDb2 = (.ok (), sampleRepo, db1) ∧
      dbLookup db1 CTD_DAO_TABLE.name = some ⟨CTD_DAO_TABLE.columns, []⟩ ∧
      SqlRepository.query sampleRepo sampleEvalSql none 2 db1 = (.ok [], sampleRepo, db1) ∧
      ∃ db2, SqlRepository.save sampleRepo samplePayload db1 = (.ok (), sampleRepo, db2) :=
  delete_all_then_query_empty sampleEvalSql sampleRepo sampleDb2
    ⟨CTD_DAO_TABLE.columns, samplePayload.rows⟩ samplePayload 2
    (by decide) (by decide) (by decide) (by decide) (by decide) (by decide)
    (by decide) (by decide)

theorem save_wraps_backend_failures_witness :
    SqlRepository.save sampleRepo bogusPayload sampleDb =
      (.error (.daoError (.noSuchColumn "ctd" "bogus")), sampleRepo, sampleDb) :=
  (save_wraps_backend_failures sampleRepo bogusPayload sampleDb).1
    (.noSuchColumn "ctd" "bogus") (by decide)

theorem init_create_unconditional_witness :
    (SqlRepository.init "loc" "ctd" CTD_DAO_TABLE [] =
       (.ok ⟨"ctd", CTD_DAO_TABLE, "loc"⟩,
        [] ++ [(CTD_DAO_TABLE.name, ⟨CTD_DAO_TABLE.columns, []⟩)])) ∧
    (SqlRepository.init "loc" "ctd" CTD_DAO_TABLE sampleDb =
       (.error (.backendError (.tableAlreadyExists CTD_DAO_TABLE.name)), sampleDb)) :=
  ⟨(init_create_unconditional "loc" "ctd" CTD_DAO_TABLE []).1 (by decide),
   (init_create_unconditional "loc" "ctd" CTD_DAO_TABLE sampleDb).2
     ⟨CTD_DAO_TABLE.columns, []⟩ (by decide)⟩

theorem only_save_wraps_witness :
    (∃ e, PyError.backendError (SqlError.noSuchTable "ctd") = .backendError e) ∧
    (∃ e, PyError.backendError (SqlError.noSuchTable "ctd") = .backendError e) ∧
    (∃ e, PyError.daoError (SqlError.noSuchColumn "ctd" "bogus") = .daoError e) :=
  ⟨(only_save_wraps sampleEvalSql sampleRepo bogusPayload none 1 []).1
      (.backendError (.noSuchTable "ctd")) sampleRepo [] (by decide),
   (only_save_wraps sampleEvalSql sampleRepo bogusPayload none 1 []).2.1
      (.backendError (.noSuchTable "ctd")) sampleRepo [] (by decide),
   (only_save_wraps sampleEvalSql sampleRepo bogusPayload none 1 sampleDb).2.2
      (.daoError (.noSuchColumn "ctd" "bogus")) sampleRepo sampleDb (by decide)⟩

theorem save_schema_mismatch_fails_witness :
    ∃ e, SqlRepository.save sampleRepo bogusPayload sampleDb =
      (.error (.daoError e), sampleRepo, sampleDb) :=
  save_schema_mismatch_fails sampleRepo bogusPayload CTD_DAO_TABLE.columns [] sampleDb
    (by decide) (by decide) (by decide)

theorem repo_state_immutable_witness :
    (⟨"ctd", CTD_DAO_TABLE, "loc"⟩ : SqlRepository).tablename = "ctd" ∧
    (⟨"ctd", CTD_DAO_TABLE, "loc"⟩ : SqlRepository).table = CTD_DAO_TABLE :=
  (repo_state_immutable sampleEvalSql sampleRepo ⟨"t", CTD_DAO_TABLE, "p", none⟩
      samplePayload none 1 [] "loc" "ctd" CTD_DAO_TABLE "/creds.json").2.2.2.2.2.2.2
    ⟨"ctd", CTD_DAO_TABLE, "loc"⟩
    ([] ++ [(CTD_DAO_TABLE.name, ⟨CTD_DAO_TABLE.columns, []⟩)]) (by decide)

end Genie
